import Mathlib

/-!
Verification of the tile caching and coordinate-transform subsystem of the
GISMap repository (`src/ui/mapwidget.cpp` and `src/core/viewtransform.cpp`),
by a shallow embedding of its data model and operations.

The disk cache is modelled as a list of files (path, modification time,
size, decodability); time is measured in days as an integer, matching the
`QDateTime::daysTo` granularity that the code uses for its staleness test.
The viewport tile set is the pair of parallel lists `m_tiles` /
`m_tilePositions`, and the fetch coordinator is the pending-URL map
`m_pendingTiles` together with a per-URL count of outstanding network
requests.  The Web-Mercator projection functions are embedded over the
reals.
-/

namespace GISMap

/-- A file in the tile cache directory tree.  `mtime` is the filesystem
last-modified time in days; `decodable` records whether `QPixmap::load`
succeeds on the file's bytes. -/
structure CacheFile where
  path : String
  mtime : Int
  size : Int
  decodable : Bool
deriving Repr, DecidableEq

/-- Look up the file at a path (`QFileInfo::exists`). -/
def fsFind (fs : List CacheFile) (p : String) : Option CacheFile :=
  fs.find? (fun f => f.path == p)

/-- Delete the file at a path (`QFile::remove`). -/
def fsRemove (fs : List CacheFile) (p : String) : List CacheFile :=
  fs.filter (fun f => f.path != p)

/-- Overwrite (or create) the file at a path with freshly decoded image
bytes; the modification time becomes the write time. -/
def fsWrite (fs : List CacheFile) (p : String) (now : Int) (size : Int) : List CacheFile :=
  fsRemove fs p ++ [CacheFile.mk p now size true]

/-- `MapWidget::getTileCachePath`: `"%1/%2/%3/%4/%5.png"` filled with the
cache directory, server name, zoom, x and y. -/
def getTileCachePath (cacheDirectory : String) (z x y : Int) (serverName : String) : String :=
  cacheDirectory ++ "/" ++ serverName ++ "/" ++ toString z ++ "/" ++ toString x ++ "/" ++
    toString y ++ ".png"

/-- `MapWidget::loadTileFromCache`: returns whether the tile was served from
cache, together with the cache directory state after the call (the call
deletes stale or corrupt files as a side effect). -/
def loadTileFromCache (cacheEnabled : Bool) (fs : List CacheFile) (now : Int)
    (cacheDirectory : String) (z x y : Int) (serverName : String) :
    Bool × List CacheFile :=
  if !cacheEnabled then (false, fs)
  else
    let cachePath := getTileCachePath cacheDirectory z x y serverName
    match fsFind fs cachePath with
    | some f =>
        if now - f.mtime > 7 then (false, fsRemove fs cachePath)
        else if f.decodable then (true, fs)
        else (false, fsRemove fs cachePath)
    | none => (false, fs)

/-- `MapWidget::getCacheSizeBytes`: 0 when the cache is disabled, otherwise
the recursive sum of the file sizes under the cache directory. -/
def getCacheSizeBytes (cacheEnabled : Bool) (fs : List CacheFile) : Int :=
  if !cacheEnabled then 0 else (fs.map CacheFile.size).sum

/-- Ordering used by `ensureCacheSize`: `std::sort` over
`QPair<QDateTime, QString>` compares lexicographically by
(modification time, absolute file path). -/
def cacheFileLE (a b : CacheFile) : Prop :=
  a.mtime < b.mtime ∨ (a.mtime = b.mtime ∧ a.path ≤ b.path)

instance : DecidableRel cacheFileLE := fun a b => by
  unfold cacheFileLE
  infer_instance

instance : IsTotal CacheFile cacheFileLE := ⟨by
  intro a b
  rcases lt_trichotomy a.mtime b.mtime with h | h | h
  · exact Or.inl (Or.inl h)
  · rcases le_total a.path b.path with hp | hp
    · exact Or.inl (Or.inr ⟨h, hp⟩)
    · exact Or.inr (Or.inr ⟨h.symm, hp⟩)
  · exact Or.inr (Or.inl h)⟩

instance : IsTrans CacheFile cacheFileLE := ⟨by
  intro a b c hab hbc
  rcases hab with h1 | ⟨h1, hp1⟩
  · rcases hbc with h2 | ⟨h2, hp2⟩
    · exact Or.inl (h1.trans h2)
    · exact Or.inl (lt_of_lt_of_le h1 (le_of_eq h2))
  · rcases hbc with h2 | ⟨h2, hp2⟩
    · exact Or.inl (lt_of_le_of_lt (le_of_eq h1) h2)
    · exact Or.inr ⟨h1.trans h2, hp1.trans hp2⟩⟩

/-- The file listing of `ensureCacheSize` sorted ascending by modification
time (oldest first). -/
def sortCacheFiles (fs : List CacheFile) : List CacheFile :=
  List.insertionSort cacheFileLE fs

/-- The deletion loop of `ensureCacheSize`, returning the files that remain:
it walks the sorted listing, deleting files (all deletions assumed to
succeed, as `QFile::remove` reports on each) while the running total still
exceeds the budget, and stops as soon as the remainder fits. -/
def reclaimKeep : List CacheFile → Int → Int → List CacheFile
  | [], _, _ => []
  | f :: rest, remaining, maxBytes =>
      if remaining ≤ maxBytes then f :: rest
      else reclaimKeep rest (remaining - f.size) maxBytes

/-- `MapWidget::ensureCacheSize`: when the cache exceeds
`m_maxCacheSizeMB * 1024 * 1024` bytes, delete files oldest-first until the
total is within budget. -/
def ensureCacheSize (cacheEnabled : Bool) (maxCacheSizeMB : Int)
    (fs : List CacheFile) : List CacheFile :=
  if !cacheEnabled then fs
  else
    let maxSizeBytes := maxCacheSizeMB * 1024 * 1024
    let currentSize := getCacheSizeBytes cacheEnabled fs
    if currentSize ≤ maxSizeBytes then fs
    else reclaimKeep (sortCacheFiles fs) currentSize maxSizeBytes

/-- `MapWidget::saveTileToCache`: nothing happens when the cache is disabled
or the pixmap is null; otherwise the image is written to the derived path
(overwriting any existing entry) and the size-budget check runs. -/
def saveTileToCache (cacheEnabled : Bool) (maxCacheSizeMB : Int) (fs : List CacheFile)
    (now : Int) (cacheDirectory : String) (z x y : Int) (serverName : String)
    (tileIsNull : Bool) (imageSize : Int) : List CacheFile :=
  if !cacheEnabled || tileIsNull then fs
  else
    ensureCacheSize cacheEnabled maxCacheSizeMB
      (fsWrite fs (getTileCachePath cacheDirectory z x y serverName) now imageSize)

/-- A tile image (`QPixmap`), distinguished the way the map widget produces
them: decoded from network bytes, loaded from a cache file, or the
deterministic placeholder of `createFallbackTile`. -/
inductive TileImage where
  | decoded (bytes : Nat)
  | cached (path : String)
  | fallback (tileX tileY : Int)
deriving Repr, DecidableEq

/-- `MapWidget::createFallbackTile`: a synthesized placeholder determined by
the tile coordinates. -/
def createFallbackTile (tileX tileY : Int) : TileImage :=
  TileImage.fallback tileX tileY

/-- The map-widget state the viewport tile set lives in: the parallel lists
`m_tiles` / `m_tilePositions`, the remembered center tile, and the settings
that shape the grid. -/
structure MapState where
  tiles : List TileImage
  tilePositions : List (Int × Int)
  centerTileX : Int
  centerTileY : Int
  zoom : Int
  dragging : Bool
  widgetWidth : Int
  widgetHeight : Int
  tileSize : Int
  activeTileServer : String
deriving Repr, DecidableEq

/-- The integers from `lo` to `hi` inclusive (a C++
`for (i = lo; i <= hi; ++i)` loop). -/
def intRange (lo hi : Int) : List Int :=
  (List.range (hi + 1 - lo).toNat).map (fun (i : Nat) => lo + (i : Int))

/-- The nested offset loops of `loadTileMap`:
`dx` runs over `[-tilesX/2, tilesX/2]`, `dy` over `[-tilesY/2, tilesY/2]`. -/
def tileWindow (tilesX tilesY : Int) : List (Int × Int) :=
  (intRange (-(tilesX / 2)) (tilesX / 2)).flatMap (fun dx =>
    (intRange (-(tilesY / 2)) (tilesY / 2)).map (fun dy => (dx, dy)))

/-- The grid-recompute branch of `MapWidget::loadTileMap`.  `cache`
abstracts `loadTileFromCache` per absolute tile coordinate: `some img` is a
cache hit placed immediately, `none` a miss for which a fallback
placeholder is placed immediately (the miss is also queued for
`loadTileAsync`, which touches only the pending set, not the tile lists).
Offsets whose absolute tile coordinates fall outside `[0, 2^zoom)` are
skipped. -/
def rebuildGrid (s : MapState) (newCX newCY : Int)
    (cache : Int → Int → Option TileImage) : MapState :=
  let tilesX := min (s.widgetWidth / s.tileSize + 3) 8
  let tilesY := min (s.widgetHeight / s.tileSize + 3) 6
  let entries := (tileWindow tilesX tilesY).filterMap (fun dxdy =>
    let tileX := newCX + dxdy.1
    let tileY := newCY + dxdy.2
    if tileX < 0 ∨ tileY < 0 ∨ (2:Int) ^ s.zoom.toNat ≤ tileX ∨ (2:Int) ^ s.zoom.toNat ≤ tileY
    then none
    else match cache tileX tileY with
      | some img => some (img, dxdy)
      | none => some (createFallbackTile tileX tileY, dxdy))
  { s with centerTileX := newCX, centerTileY := newCY,
           tiles := entries.map Prod.fst,
           tilePositions := entries.map Prod.snd }

/-- `MapWidget::loadTileMap` with the center tile already recomputed from
the geographic center: when not dragging, the center tile has moved by less
than one tile in both axes, and the grid is nonempty, the existing grid is
kept; otherwise the grid is rebuilt wholesale. -/
def loadTileMap (s : MapState) (newCX newCY : Int)
    (cache : Int → Int → Option TileImage) : MapState :=
  if ¬s.dragging ∧ |newCX - s.centerTileX| < 1 ∧ |newCY - s.centerTileY| < 1 ∧ s.tiles ≠ []
  then s
  else rebuildGrid s newCX newCY cache

/-- The tile-reload tail of `MapWidget::mouseMoveEvent` for a left-button
drag pan: the stored center tile is first reset to the -999 sentinel to
force a reload, then `loadTileMap` runs at the new drag position. -/
def mouseMoveDrag (s : MapState) (newCX newCY : Int)
    (cache : Int → Int → Option TileImage) : MapState :=
  if s.dragging then
    loadTileMap { s with centerTileX := -999, centerTileY := -999 } newCX newCY cache
  else s

/-- `MapWidget::setTileServer`: on an actual server change the tile lists
are cleared and the grid reloaded. -/
def setTileServer (s : MapState) (serverName : String) (newCX newCY : Int)
    (cache : Int → Int → Option TileImage) : MapState :=
  if s.activeTileServer ≠ serverName then
    loadTileMap { s with activeTileServer := serverName, tiles := [], tilePositions := [] }
      newCX newCY cache
  else s

/-- `MapWidget::refreshMap`: clear the tile lists and reload. -/
def refreshMap (s : MapState) (newCX newCY : Int)
    (cache : Int → Int → Option TileImage) : MapState :=
  loadTileMap { s with tiles := [], tilePositions := [] } newCX newCY cache

/-- `MapWidget::onTileLoaded`: a delivered asynchronous tile is dropped if
its zoom differs from the current zoom; otherwise it is appended to the
tile lists exactly when its offset is still present in the current
`m_tilePositions`. -/
def onTileLoaded (s : MapState) (z x y offsetX offsetY : Int) (tile : TileImage) : MapState :=
  if z ≠ s.zoom then s
  else if (offsetX, offsetY) ∈ s.tilePositions then
    { s with tiles := s.tiles ++ [tile],
             tilePositions := s.tilePositions ++ [(offsetX, offsetY)] }
  else s

/-- A nonempty single-tile viewport state used to exercise the delivery
membership check. -/
def c5State : MapState :=
  { tiles := [TileImage.fallback 2 2], tilePositions := [(0, 0)],
    centerTileX := 2, centerTileY := 2, zoom := 5, dragging := false,
    widgetWidth := 800, widgetHeight := 600, tileSize := 256,
    activeTileServer := "openstreetmap" }

/-- A mid-drag state whose center tile will not move on the next pan. -/
def dragState : MapState :=
  { tiles := [TileImage.fallback 2 2], tilePositions := [(0, 0)],
    centerTileX := 2, centerTileY := 2, zoom := 3, dragging := true,
    widgetWidth := 1, widgetHeight := 1, tileSize := 256,
    activeTileServer := "openstreetmap" }

/-- The same state with the drag finished. -/
def noDragState : MapState :=
  { tiles := [TileImage.fallback 2 2], tilePositions := [(0, 0)],
    centerTileX := 2, centerTileY := 2, zoom := 3, dragging := false,
    widgetWidth := 1, widgetHeight := 1, tileSize := 256,
    activeTileServer := "openstreetmap" }

/-- A 1280×1024 widget at zoom 12, centered well inside the tile pyramid,
so no offset of the recomputed grid is skipped as out of range. -/
def wideState : MapState :=
  { tiles := [], tilePositions := [], centerTileX := 0, centerTileY := 0,
    zoom := 12, dragging := false, widgetWidth := 1280, widgetHeight := 1024,
    tileSize := 256, activeTileServer := "openstreetmap" }

/-- A state satisfying the parallel-lists invariant, for the invariant
witness. -/
def c9State : MapState :=
  { tiles := [TileImage.fallback 3 3, TileImage.decoded 9],
    tilePositions := [(0, 0), (1, 0)],
    centerTileX := 3, centerTileY := 3, zoom := 4, dragging := false,
    widgetWidth := 400, widgetHeight := 300, tileSize := 256,
    activeTileServer := "openstreetmap" }

/-- A state for the zoom-mismatch delivery witness. -/
def c10State : MapState :=
  { tiles := [TileImage.fallback 1 1], tilePositions := [(1, 1)],
    centerTileX := 1, centerTileY := 1, zoom := 5, dragging := false,
    widgetWidth := 400, widgetHeight := 300, tileSize := 256,
    activeTileServer := "openstreetmap" }

/-- URL built by `loadTileAsync`: the server template with the `{z}`, `{x}`
and `{y}` placeholders replaced. -/
def tileUrl (template : String) (z x y : Int) : String :=
  ((template.replace "{z}" (toString z)).replace "{x}" (toString x)).replace "{y}" (toString y)

/-- An entry of `m_pendingTiles`: the URL key mapped to
(tile coords, offset coords). -/
structure PendingEntry where
  url : String
  tileCoords : Int × Int
  offsetCoords : Int × Int
deriving Repr, DecidableEq

/-- Fetch-coordinator state: the pending map plus, for each URL, the number
of network requests dispatched and not yet finished. -/
structure FetchState where
  pendingTiles : List PendingEntry
  inflight : String → Nat

/-- `m_pendingTiles.contains(url)`. -/
def pendingContains (l : List PendingEntry) (url : String) : Bool :=
  l.any (fun e => e.url == url)

/-- `MapWidget::loadTileAsync` acting on the coordinator state: a miss
whose URL is already pending dispatches nothing; otherwise the URL is
recorded as pending and one network request is dispatched. -/
def loadTileAsync (st : FetchState) (template : String) (z x y offsetX offsetY : Int) :
    FetchState :=
  let url := tileUrl template z x y
  if pendingContains st.pendingTiles url then st
  else
    { pendingTiles := st.pendingTiles ++ [PendingEntry.mk url (x, y) (offsetX, offsetY)],
      inflight := fun u => if u = url then st.inflight u + 1 else st.inflight u }

/-- Effect of a reply's finished callback on the coordinator state: the
URL leaves the pending map and its request is no longer outstanding. -/
def finishReply (st : FetchState) (url : String) : FetchState :=
  { pendingTiles := st.pendingTiles.filter (fun e => e.url != url),
    inflight := fun u => if u = url then st.inflight u - 1 else st.inflight u }

/-- The events the coordinator state undergoes: a cache miss runs
`loadTileAsync`; the finished callback of a dispatched request fires — only
a request actually outstanding, i.e. whose URL is pending, can finish,
since each dispatch installs exactly one callback. -/
inductive FetchStep : FetchState → FetchState → Prop
  | miss (st : FetchState) (template : String) (z x y offsetX offsetY : Int) :
      FetchStep st (loadTileAsync st template z x y offsetX offsetY)
  | finished (st : FetchState) (url : String)
      (h : pendingContains st.pendingTiles url = true) :
      FetchStep st (finishReply st url)

/-- Start state: no pending tiles, no outstanding requests. -/
def initFetchState : FetchState :=
  { pendingTiles := [], inflight := fun _ => 0 }

/-- Coordinator states reachable from the start state. -/
def FetchReachable (st : FetchState) : Prop :=
  Relation.ReflTransGen FetchStep initFetchState st

/-- The coordinator's dedup invariant: a URL has exactly one outstanding
request while it is pending, none otherwise. -/
def fetchInv (st : FetchState) : Prop :=
  ∀ u, st.inflight u = if pendingContains st.pendingTiles u then 1 else 0

/-- Outcome of a network reply as the finished handler observes it:
transport success, the body bytes, and whether they decode to a pixmap. -/
structure ReplyOutcome where
  networkOk : Bool
  bytes : Nat
  decodable : Bool
deriving Repr, DecidableEq

/-- The reply-finished handler installed by `loadTileAsync`, acting on the
pending map, the disk cache and the viewport state.  The pending entry is
removed first; a decodable successful reply is written through to the
cache and delivered via `onTileLoaded`; undecodable bytes or a network
error synthesize a fallback tile that is delivered without touching the
cache. -/
def onReplyFinished (pending : List PendingEntry) (cacheEnabled : Bool)
    (maxCacheSizeMB : Int) (fs : List CacheFile) (now : Int) (cacheDirectory : String)
    (s : MapState) (z x y offsetX offsetY : Int) (url : String) (r : ReplyOutcome) :
    List PendingEntry × List CacheFile × MapState :=
  let pending' := pending.filter (fun e => e.url != url)
  if r.networkOk then
    if r.decodable then
      (pending',
       saveTileToCache cacheEnabled maxCacheSizeMB fs now cacheDirectory z x y
         s.activeTileServer false (r.bytes : Int),
       onTileLoaded s z x y offsetX offsetY (TileImage.decoded r.bytes))
    else
      (pending', fs, onTileLoaded s z x y offsetX offsetY (createFallbackTile x y))
  else
    (pending', fs, onTileLoaded s z x y offsetX offsetY (createFallbackTile x y))

/-- `ViewTransform::TILE_SIZE`. -/
def TILE_SIZE : ℝ := 256

/-- `ViewTransform::geoToPixel`: the Web-Mercator forward projection, with
the `QPointF` argument split into longitude (`x()`) and latitude (`y()`). -/
noncomputable def geoToPixel (lon lat : ℝ) (zoom : ℕ) : ℝ × ℝ :=
  ((lon + 180) / 360 * (2 ^ zoom : ℝ) * TILE_SIZE,
   (1 - Real.log (Real.tan (lat * Real.pi / 180) + 1 / Real.cos (lat * Real.pi / 180)) /
       Real.pi) / 2 * (2 ^ zoom : ℝ) * TILE_SIZE)

/-- `ViewTransform::pixelToGeo`: the inverse Web-Mercator projection,
returning (longitude, latitude). -/
noncomputable def pixelToGeo (px py : ℝ) (zoom : ℕ) : ℝ × ℝ :=
  ((px / TILE_SIZE) / (2 ^ zoom : ℝ) * 360 - 180,
   Real.arctan (Real.sinh (Real.pi * (1 - 2 * (py / TILE_SIZE) / (2 ^ zoom : ℝ)))) * 180 /
     Real.pi)

end GISMap

namespace GISMap

/-! Theorems. -/

/-- **C1.** `loadTileFromCache` (with the cache enabled) returns a hit exactly
when the file exists, its modification time is within the 7-day staleness
window, and it decodes; when the file exists but is stale (strictly older
than 7 days) or undecodable, the call misses and deletes the file. -/
theorem loadTileFromCache_staleness_and_selfheal (fs : List CacheFile) (now : Int)
    (dir : String) (z x y : Int) (server : String) :
    ((loadTileFromCache true fs now dir z x y server).1 = true ↔
      ∃ f, fsFind fs (getTileCachePath dir z x y server) = some f ∧
        now - f.mtime ≤ 7 ∧ f.decodable = true) ∧
    (∀ f, fsFind fs (getTileCachePath dir z x y server) = some f →
      (now - f.mtime > 7 ∨ f.decodable = false) →
      loadTileFromCache true fs now dir z x y server =
        (false, fsRemove fs (getTileCachePath dir z x y server))) := by
  constructor
  · cases hfind : fsFind fs (getTileCachePath dir z x y server) with
    | none => simp [loadTileFromCache, hfind]
    | some f =>
        by_cases hstale : now - f.mtime > 7
        · simp only [loadTileFromCache, Bool.not_true, Bool.false_eq_true, if_false, hfind,
            if_pos hstale]
          constructor
          · intro h
            exact absurd h (by simp)
          · rintro ⟨g, hg, h7, _⟩
            injection hg with h
            subst h
            omega
        · by_cases hdec : f.decodable = true
          · simp only [loadTileFromCache, Bool.not_true, Bool.false_eq_true, if_false, hfind,
              if_neg hstale, if_pos hdec]
            constructor
            · intro _
              exact ⟨f, rfl, by omega, hdec⟩
            · intro _
              trivial
          · simp only [loadTileFromCache, Bool.not_true, Bool.false_eq_true, if_false, hfind,
              if_neg hstale, if_neg hdec]
            constructor
            · intro h
              exact absurd h (by simp)
            · rintro ⟨g, hg, _, hgdec⟩
              injection hg with h
              subst h
              exact absurd hgdec hdec
  · intro f hfind hbad
    rcases hbad with hstale | hdec
    · simp only [loadTileFromCache, Bool.not_true, Bool.false_eq_true, if_false, hfind,
        if_pos hstale]
    · by_cases hstale : now - f.mtime > 7
      · simp only [loadTileFromCache, Bool.not_true, Bool.false_eq_true, if_false, hfind,
          if_pos hstale]
      · simp only [loadTileFromCache, Bool.not_true, Bool.false_eq_true, if_false, hfind,
          if_neg hstale, if_neg (by simp [hdec] : ¬f.decodable = true)]

/-- Concrete instance of C1: a stale file (8 days old) is a miss and is
deleted. -/
theorem loadTileFromCache_staleness_witness :
    fsFind [CacheFile.mk "cache/openstreetmap/12/3295/1846.png" 0 5000 true]
        (getTileCachePath "cache" 12 3295 1846 "openstreetmap") =
      some (CacheFile.mk "cache/openstreetmap/12/3295/1846.png" 0 5000 true) ∧
    loadTileFromCache true [CacheFile.mk "cache/openstreetmap/12/3295/1846.png" 0 5000 true]
        8 "cache" 12 3295 1846 "openstreetmap" =
      (false, fsRemove [CacheFile.mk "cache/openstreetmap/12/3295/1846.png" 0 5000 true]
        (getTileCachePath "cache" 12 3295 1846 "openstreetmap")) :=
  ⟨by decide,
   (loadTileFromCache_staleness_and_selfheal
      [CacheFile.mk "cache/openstreetmap/12/3295/1846.png" 0 5000 true]
      8 "cache" 12 3295 1846 "openstreetmap").2
    (CacheFile.mk "cache/openstreetmap/12/3295/1846.png" 0 5000 true)
    (by decide) (Or.inl (by decide))⟩

theorem reclaimKeep_size_le (maxBytes : Int) (hmax : 0 ≤ maxBytes) :
    ∀ (l : List CacheFile) (r : Int), r = (l.map CacheFile.size).sum →
      ((reclaimKeep l r maxBytes).map CacheFile.size).sum ≤ maxBytes := by
  intro l
  induction l with
  | nil =>
      intro r hr
      simpa [reclaimKeep] using hmax
  | cons f rest ih =>
      intro r hr
      by_cases hle : r ≤ maxBytes
      · rw [reclaimKeep, if_pos hle, ← hr]
        exact hle
      · rw [reclaimKeep, if_neg hle]
        refine ih (r - f.size) ?_
        rw [hr, List.map_cons, List.sum_cons]
        ring

theorem reclaimKeep_eq_drop :
    ∀ (l : List CacheFile) (r maxBytes : Int), ∃ k, reclaimKeep l r maxBytes = l.drop k := by
  intro l
  induction l with
  | nil =>
      intro r maxBytes
      exact ⟨0, by simp [reclaimKeep]⟩
  | cons f rest ih =>
      intro r maxBytes
      by_cases hle : r ≤ maxBytes
      · exact ⟨0, by simp [reclaimKeep, hle]⟩
      · obtain ⟨k, hk⟩ := ih (r - f.size) maxBytes
        exact ⟨k + 1, by simp [reclaimKeep, hle, hk]⟩

/-- **C2.** When the cache exceeds its byte budget and every deletion
succeeds, `ensureCacheSize` leaves a total size within
`maxCacheSizeMB * 1024 * 1024` bytes, and the surviving files are a suffix
of the mtime-ascending sorted listing: every deleted file is at least as old
as every retained file (oldest deleted first, most recent retained). -/
theorem ensureCacheSize_budget_and_oldest_first (maxCacheSizeMB : Int) (fs : List CacheFile)
    (hmax : 0 ≤ maxCacheSizeMB)
    (hover : getCacheSizeBytes true fs > maxCacheSizeMB * 1024 * 1024) :
    getCacheSizeBytes true (ensureCacheSize true maxCacheSizeMB fs) ≤
        maxCacheSizeMB * 1024 * 1024 ∧
    ∃ k, ensureCacheSize true maxCacheSizeMB fs = (sortCacheFiles fs).drop k ∧
      ∀ d ∈ (sortCacheFiles fs).take k, ∀ g ∈ (sortCacheFiles fs).drop k,
        d.mtime ≤ g.mtime := by
  have hperm : List.Perm (sortCacheFiles fs) fs := List.perm_insertionSort cacheFileLE fs
  have hsum : ((sortCacheFiles fs).map CacheFile.size).sum = (fs.map CacheFile.size).sum :=
    (hperm.map CacheFile.size).sum_eq
  have hnotle : ¬getCacheSizeBytes true fs ≤ maxCacheSizeMB * 1024 * 1024 := by omega
  have hmaxB : (0:Int) ≤ maxCacheSizeMB * 1024 * 1024 := by omega
  have hres : ensureCacheSize true maxCacheSizeMB fs =
      reclaimKeep (sortCacheFiles fs) (getCacheSizeBytes true fs)
        (maxCacheSizeMB * 1024 * 1024) := by
    rw [ensureCacheSize]
    simp only [Bool.not_true, Bool.false_eq_true, if_false]
    rw [if_neg hnotle]
  constructor
  · rw [hres]
    have hr : getCacheSizeBytes true fs = ((sortCacheFiles fs).map CacheFile.size).sum := by
      rw [hsum]
      simp [getCacheSizeBytes]
    calc getCacheSizeBytes true
          (reclaimKeep (sortCacheFiles fs) (getCacheSizeBytes true fs)
            (maxCacheSizeMB * 1024 * 1024))
        = ((reclaimKeep (sortCacheFiles fs) (getCacheSizeBytes true fs)
            (maxCacheSizeMB * 1024 * 1024)).map CacheFile.size).sum := by
          simp [getCacheSizeBytes]
      _ ≤ maxCacheSizeMB * 1024 * 1024 :=
          reclaimKeep_size_le (maxCacheSizeMB * 1024 * 1024) hmaxB (sortCacheFiles fs)
            (getCacheSizeBytes true fs) hr
  · obtain ⟨k, hk⟩ := reclaimKeep_eq_drop (sortCacheFiles fs) (getCacheSizeBytes true fs)
      (maxCacheSizeMB * 1024 * 1024)
    refine ⟨k, by rw [hres, hk], ?_⟩
    have hsorted : List.Sorted cacheFileLE (sortCacheFiles fs) :=
      List.sorted_insertionSort cacheFileLE fs
    have hsplit : List.Pairwise cacheFileLE
        ((sortCacheFiles fs).take k ++ (sortCacheFiles fs).drop k) := by
      rw [List.take_append_drop]
      exact hsorted
    obtain ⟨-, -, hcross⟩ := List.pairwise_append.mp hsplit
    intro d hd g hg
    rcases hcross d hd g hg with hlt | ⟨heq, -⟩
    · exact le_of_lt hlt
    · exact le_of_eq heq

/-- Concrete instance of C2: a two-file cache of 3 MB against a 1 MB budget
is reclaimed to within budget, dropping the oldest file. -/
theorem ensureCacheSize_budget_witness :
    (0:Int) ≤ 1 ∧
    getCacheSizeBytes true
        [CacheFile.mk "a" 5 2000000 true, CacheFile.mk "b" 0 1000000 true] >
      1 * 1024 * 1024 ∧
    (getCacheSizeBytes true (ensureCacheSize true 1
          [CacheFile.mk "a" 5 2000000 true, CacheFile.mk "b" 0 1000000 true]) ≤
        1 * 1024 * 1024 ∧
      ∃ k, ensureCacheSize true 1
            [CacheFile.mk "a" 5 2000000 true, CacheFile.mk "b" 0 1000000 true] =
          (sortCacheFiles
            [CacheFile.mk "a" 5 2000000 true, CacheFile.mk "b" 0 1000000 true]).drop k ∧
        ∀ d ∈ (sortCacheFiles
            [CacheFile.mk "a" 5 2000000 true, CacheFile.mk "b" 0 1000000 true]).take k,
          ∀ g ∈ (sortCacheFiles
              [CacheFile.mk "a" 5 2000000 true, CacheFile.mk "b" 0 1000000 true]).drop k,
            d.mtime ≤ g.mtime) :=
  ⟨by decide, by decide,
   ensureCacheSize_budget_and_oldest_first 1
     [CacheFile.mk "a" 5 2000000 true, CacheFile.mk "b" 0 1000000 true]
     (by decide) (by decide)⟩

theorem mem_intRange {a lo hi : Int} (h : a ∈ intRange lo hi) : lo ≤ a ∧ a ≤ hi := by
  rw [intRange] at h
  obtain ⟨i, hi2, rfl⟩ := List.mem_map.mp h
  have hlt := List.mem_range.mp hi2
  omega

theorem intRange_length (lo hi : Int) : (intRange lo hi).length = (hi + 1 - lo).toNat := by
  rw [intRange, List.length_map, List.length_range]

theorem mem_tileWindow {p : Int × Int} {tx ty : Int} (h : p ∈ tileWindow tx ty) :
    -(tx / 2) ≤ p.1 ∧ p.1 ≤ tx / 2 ∧ -(ty / 2) ≤ p.2 ∧ p.2 ≤ ty / 2 := by
  simp only [tileWindow, List.mem_flatMap, List.mem_map] at h
  obtain ⟨dx, hdx, dy, hdy, rfl⟩ := h
  obtain ⟨h1, h2⟩ := mem_intRange hdx
  obtain ⟨h3, h4⟩ := mem_intRange hdy
  exact ⟨h1, h2, h3, h4⟩

theorem rebuildGrid_positions_subset (s : MapState) (newCX newCY : Int)
    (cache : Int → Int → Option TileImage) :
    ∀ p ∈ (rebuildGrid s newCX newCY cache).tilePositions,
      p ∈ tileWindow (min (s.widgetWidth / s.tileSize + 3) 8)
        (min (s.widgetHeight / s.tileSize + 3) 6) := by
  intro p hp
  simp only [rebuildGrid, List.mem_map, List.mem_filterMap] at hp
  obtain ⟨⟨img, q⟩, ⟨dxdy, hdxdy, hf⟩, rfl⟩ := hp
  by_cases hv : newCX + dxdy.1 < 0 ∨ newCY + dxdy.2 < 0 ∨
      (2:Int) ^ s.zoom.toNat ≤ newCX + dxdy.1 ∨ (2:Int) ^ s.zoom.toNat ≤ newCY + dxdy.2
  · rw [if_pos hv] at hf
    cases hf
  · rw [if_neg hv] at hf
    cases hc : cache (newCX + dxdy.1) (newCY + dxdy.2) with
    | some img2 =>
        rw [hc] at hf
        simp only [Option.some.injEq, Prod.mk.injEq] at hf
        obtain ⟨-, rfl⟩ := hf
        exact hdxdy
    | none =>
        rw [hc] at hf
        simp only [Option.some.injEq, Prod.mk.injEq] at hf
        obtain ⟨-, rfl⟩ := hf
        exact hdxdy

theorem length_flatMap_mapConst {α β γ : Type} (l : List α) (m : List β) (g : α → β → γ) :
    (l.flatMap (fun a => m.map (g a))).length = l.length * m.length := by
  induction l with
  | nil => simp
  | cons a t ih => simp [ih, Nat.succ_mul, Nat.add_comm]

theorem tileWindow_length_eq (tx ty : Int) :
    (tileWindow tx ty).length =
      (tx / 2 + 1 - -(tx / 2)).toNat * (ty / 2 + 1 - -(ty / 2)).toNat := by
  rw [tileWindow, length_flatMap_mapConst, intRange_length, intRange_length]

/-- **C7 (amended).** A grid recompute produces offsets within the fixed
window `[-4, 4] × [-3, 3]`: the grid spans at most 9 tiles horizontally and
7 tiles vertically (not 8×6: the loop runs from `-tilesX/2` to `tilesX/2`
inclusive, which is `2*(tilesX/2) + 1` columns, 9 when the cap `tilesX = 8`
is reached, and likewise 7 rows for `tilesY = 6`), so one recompute places
at most 63 tiles. -/
theorem rebuildGrid_span_bound (s : MapState) (newCX newCY : Int)
    (cache : Int → Int → Option TileImage) :
    (∀ p ∈ (rebuildGrid s newCX newCY cache).tilePositions,
      -4 ≤ p.1 ∧ p.1 ≤ 4 ∧ -3 ≤ p.2 ∧ p.2 ≤ 3) ∧
    (rebuildGrid s newCX newCY cache).tilePositions.length ≤ 63 := by
  have htx : min (s.widgetWidth / s.tileSize + 3) 8 ≤ 8 := min_le_right _ _
  have hty : min (s.widgetHeight / s.tileSize + 3) 6 ≤ 6 := min_le_right _ _
  constructor
  · intro p hp
    have hb := mem_tileWindow (rebuildGrid_positions_subset s newCX newCY cache p hp)
    omega
  · have hlen : (rebuildGrid s newCX newCY cache).tilePositions.length ≤
        (tileWindow (min (s.widgetWidth / s.tileSize + 3) 8)
          (min (s.widgetHeight / s.tileSize + 3) 6)).length := by
      simp only [rebuildGrid, List.length_map]
      exact List.length_filterMap_le _ _
    rw [tileWindow_length_eq] at hlen
    have hx : (min (s.widgetWidth / s.tileSize + 3) 8 / 2 + 1 -
        -(min (s.widgetWidth / s.tileSize + 3) 8 / 2)).toNat ≤ 9 := by omega
    have hy : (min (s.widgetHeight / s.tileSize + 3) 6 / 2 + 1 -
        -(min (s.widgetHeight / s.tileSize + 3) 6 / 2)).toNat ≤ 7 := by omega
    calc (rebuildGrid s newCX newCY cache).tilePositions.length
        ≤ _ := hlen
      _ ≤ 9 * 7 := Nat.mul_le_mul hx hy
      _ ≤ 63 := by omega

/-- C7 as stated is false: with a 1280×1024 widget the recomputed grid
spans 9 distinct columns and 7 distinct rows, exceeding the claimed 8×6. -/
theorem gridSpan_exceeds_8x6 :
    ((rebuildGrid wideState 100 100 (fun _ _ => none)).tilePositions.map
        Prod.fst).dedup.length = 9 ∧
    ((rebuildGrid wideState 100 100 (fun _ _ => none)).tilePositions.map
        Prod.snd).dedup.length = 7 := by
  decide

/-- Concrete instance of the amended C7 bound at the extreme offset. -/
theorem rebuildGrid_span_bound_witness :
    ((4:Int), (3:Int)) ∈ (rebuildGrid wideState 100 100 (fun _ _ => none)).tilePositions ∧
    (-4 ≤ (((4:Int), (3:Int)) : Int × Int).1 ∧ (((4:Int), (3:Int)) : Int × Int).1 ≤ 4 ∧
      -3 ≤ (((4:Int), (3:Int)) : Int × Int).2 ∧ (((4:Int), (3:Int)) : Int × Int).2 ≤ 3) :=
  ⟨by decide,
   (rebuildGrid_span_bound wideState 100 100 (fun _ _ => none)).1 (4, 3) (by decide)⟩

/-- **C5.** Delivery of a resolved fetch checks membership in the current
tile-position list: when the offset is no longer present the delivery
leaves the state unchanged (the tile never enters the tile set), when it is
present (at the current zoom) the tile is appended, and any tile found in
the post-delivery tile set was already there or had its offset present. -/
theorem onTileLoaded_membership_check (s : MapState) (z x y ox oy : Int) (tile : TileImage) :
    ((ox, oy) ∉ s.tilePositions → onTileLoaded s z x y ox oy tile = s) ∧
    (z = s.zoom → (ox, oy) ∈ s.tilePositions →
      onTileLoaded s z x y ox oy tile =
        { s with tiles := s.tiles ++ [tile],
                 tilePositions := s.tilePositions ++ [(ox, oy)] }) ∧
    (tile ∈ (onTileLoaded s z x y ox oy tile).tiles →
      tile ∈ s.tiles ∨ (ox, oy) ∈ s.tilePositions) := by
  refine ⟨?_, ?_, ?_⟩
  · intro hmem
    by_cases hz : z ≠ s.zoom
    · simp [onTileLoaded, hz]
    · simp [onTileLoaded, hz, hmem]
  · intro hz hmem
    simp [onTileLoaded, hz, hmem]
  · intro htile
    by_cases hz : z ≠ s.zoom
    · rw [onTileLoaded, if_pos hz] at htile
      exact Or.inl htile
    · by_cases hmem : (ox, oy) ∈ s.tilePositions
      · exact Or.inr hmem
      · rw [onTileLoaded, if_neg hz, if_neg hmem] at htile
        exact Or.inl htile

/-- Concrete instance of C5: a delivery for an offset that left the
viewport is discarded. -/
theorem onTileLoaded_membership_witness :
    ((9:Int), (9:Int)) ∉ c5State.tilePositions ∧
    onTileLoaded c5State 5 11 11 9 9 (TileImage.decoded 1) = c5State :=
  ⟨by decide,
   (onTileLoaded_membership_check c5State 5 11 11 9 9 (TileImage.decoded 1)).1 (by decide)⟩

/-- **C6 (amended).** On a recompute outside a drag, a center-tile move of
less than one tile in both axes with a nonempty grid retains the existing
grid unchanged; while dragging, `loadTileMap` always rebuilds the grid (and
the mouse-move drag handler additionally resets the remembered center tile
to the -999 sentinel before reloading), so drag pans replace the grid
regardless of how little the center moved. -/
theorem loadTileMap_retention_policy (s : MapState) (newCX newCY : Int)
    (cache : Int → Int → Option TileImage) :
    (s.dragging = false → |newCX - s.centerTileX| < 1 → |newCY - s.centerTileY| < 1 →
      s.tiles ≠ [] → loadTileMap s newCX newCY cache = s) ∧
    (s.dragging = true →
      loadTileMap s newCX newCY cache = rebuildGrid s newCX newCY cache ∧
      mouseMoveDrag s newCX newCY cache =
        rebuildGrid { s with centerTileX := -999, centerTileY := -999 } newCX newCY cache) := by
  constructor
  · intro hd h1 h2 hne
    rw [loadTileMap, if_pos ⟨by simp [hd], h1, h2, hne⟩]
  · intro hd
    constructor
    · rw [loadTileMap, if_neg (by simp [hd])]
    · rw [mouseMoveDrag, if_pos hd, loadTileMap, if_neg (by simp [hd])]

/-- C6 as stated is false: a drag pan that leaves the center tile unchanged
(i.e. moves it by less than one tile in both axes) still replaces the
grid. -/
theorem subTilePan_reload_counterexample :
    |(2:Int) - dragState.centerTileX| < 1 ∧ |(2:Int) - dragState.centerTileY| < 1 ∧
    (mouseMoveDrag dragState 2 2 (fun _ _ => none)).tilePositions ≠
      dragState.tilePositions := by
  decide

/-- Concrete instance of the amended C6: the same sub-tile movement outside
a drag retains the grid. -/
theorem loadTileMap_retention_witness :
    noDragState.dragging = false ∧ |(2:Int) - noDragState.centerTileX| < 1 ∧
    |(2:Int) - noDragState.centerTileY| < 1 ∧ noDragState.tiles ≠ [] ∧
    loadTileMap noDragState 2 2 (fun _ _ => none) = noDragState :=
  ⟨by decide, by decide, by decide, by decide,
   (loadTileMap_retention_policy noDragState 2 2 (fun _ _ => none)).1
     (by decide) (by decide) (by decide) (by decide)⟩

theorem rebuildGrid_parallel (s : MapState) (newCX newCY : Int)
    (cache : Int → Int → Option TileImage) :
    (rebuildGrid s newCX newCY cache).tiles.length =
      (rebuildGrid s newCX newCY cache).tilePositions.length := by
  simp [rebuildGrid]

theorem loadTileMap_parallel (s : MapState)
    (hinv : s.tiles.length = s.tilePositions.length) (newCX newCY : Int)
    (cache : Int → Int → Option TileImage) :
    (loadTileMap s newCX newCY cache).tiles.length =
      (loadTileMap s newCX newCY cache).tilePositions.length := by
  rw [loadTileMap]
  split
  · exact hinv
  · exact rebuildGrid_parallel s newCX newCY cache

/-- **C9.** Every operation that mutates the viewport tile set — grid
recompute, async delivery, server switch, refresh, drag reload — keeps
`m_tiles` and `m_tilePositions` the same length, so entry i of one pairs
with entry i of the other. -/
theorem tileSet_parallel_lists_invariant (s : MapState)
    (hinv : s.tiles.length = s.tilePositions.length) :
    (∀ newCX newCY cache, (loadTileMap s newCX newCY cache).tiles.length =
        (loadTileMap s newCX newCY cache).tilePositions.length) ∧
    (∀ z x y ox oy tile, (onTileLoaded s z x y ox oy tile).tiles.length =
        (onTileLoaded s z x y ox oy tile).tilePositions.length) ∧
    (∀ server newCX newCY cache, (setTileServer s server newCX newCY cache).tiles.length =
        (setTileServer s server newCX newCY cache).tilePositions.length) ∧
    (∀ newCX newCY cache, (refreshMap s newCX newCY cache).tiles.length =
        (refreshMap s newCX newCY cache).tilePositions.length) ∧
    (∀ newCX newCY cache, (mouseMoveDrag s newCX newCY cache).tiles.length =
        (mouseMoveDrag s newCX newCY cache).tilePositions.length) := by
  refine ⟨fun newCX newCY cache => loadTileMap_parallel s hinv newCX newCY cache,
    ?_, ?_, ?_, ?_⟩
  · intro z x y ox oy tile
    rw [onTileLoaded]
    split
    · exact hinv
    · split
      · simp [hinv]
      · exact hinv
  · intro server newCX newCY cache
    rw [setTileServer]
    split
    · exact loadTileMap_parallel _ (by simp) newCX newCY cache
    · exact hinv
  · intro newCX newCY cache
    exact loadTileMap_parallel _ (by simp) newCX newCY cache
  · intro newCX newCY cache
    rw [mouseMoveDrag]
    split
    · exact loadTileMap_parallel _ (by simpa using hinv) newCX newCY cache
    · exact hinv

/-- Concrete instance of C9 on a two-tile state. -/
theorem tileSet_parallel_lists_witness :
    c9State.tiles.length = c9State.tilePositions.length ∧
    (loadTileMap c9State 0 0 (fun _ _ => none)).tiles.length =
      (loadTileMap c9State 0 0 (fun _ _ => none)).tilePositions.length :=
  ⟨by decide, (tileSet_parallel_lists_invariant c9State (by decide)).1 0 0 (fun _ _ => none)⟩

/-- **C10.** A delivered asynchronous tile whose zoom differs from the
widget's current zoom is discarded unconditionally — before and regardless
of the offset-membership check — leaving the state unchanged. -/
theorem onTileLoaded_zoom_mismatch_discard (s : MapState) (z x y ox oy : Int)
    (tile : TileImage) (h : z ≠ s.zoom) :
    onTileLoaded s z x y ox oy tile = s := by
  rw [onTileLoaded, if_pos h]

/-- Concrete instance of C10: the stale-zoom delivery is dropped even
though its offset is present in the current grid. -/
theorem onTileLoaded_zoom_mismatch_witness :
    (4:Int) ≠ c10State.zoom ∧ ((1:Int), (1:Int)) ∈ c10State.tilePositions ∧
    onTileLoaded c10State 4 3 3 1 1 (TileImage.decoded 7) = c10State :=
  ⟨by decide, by decide,
   onTileLoaded_zoom_mismatch_discard c10State 4 3 3 1 1 (TileImage.decoded 7) (by decide)⟩

theorem pendingContains_append (l : List PendingEntry) (e : PendingEntry) (u : String) :
    pendingContains (l ++ [e]) u = (pendingContains l u || (e.url == u)) := by
  simp [pendingContains]

theorem pendingContains_filter_self (l : List PendingEntry) (url : String) :
    pendingContains (l.filter (fun e => e.url != url)) url = false := by
  induction l with
  | nil => rfl
  | cons e t ih =>
      by_cases he : e.url = url
      · rw [List.filter_cons_of_neg (by simp [he])]
        exact ih
      · rw [List.filter_cons_of_pos (by simp [he])]
        simp only [pendingContains, List.any_cons]
        rw [show (t.filter fun e => e.url != url).any (fun e => e.url == url) =
              pendingContains (t.filter fun e => e.url != url) url from rfl, ih]
        simp [he]

theorem pendingContains_filter_ne (l : List PendingEntry) (url u : String) (h : u ≠ url) :
    pendingContains (l.filter (fun e => e.url != url)) u = pendingContains l u := by
  induction l with
  | nil => rfl
  | cons e t ih =>
      by_cases he : e.url = url
      · rw [List.filter_cons_of_neg (by simp [he])]
        rw [ih]
        have hne : (e.url == u) = false := by
          rw [he]
          simp [Ne.symm h]
        simp [pendingContains, List.any_cons, hne]
      · rw [List.filter_cons_of_pos (by simp [he])]
        simp only [pendingContains, List.any_cons]
        rw [show (t.filter fun e => e.url != url).any (fun e => e.url == u) =
              pendingContains (t.filter fun e => e.url != url) u from rfl, ih]
        rfl

theorem fetchInv_step {s t : FetchState} (hstep : FetchStep s t) (hs : fetchInv s) :
    fetchInv t := by
  cases hstep with
  | miss template z x y ox oy =>
      by_cases hp : pendingContains s.pendingTiles (tileUrl template z x y) = true
      · simpa [loadTileAsync, hp] using hs
      · rw [Bool.not_eq_true] at hp
        intro u
        simp only [loadTileAsync, hp, Bool.false_eq_true, if_false, pendingContains_append]
        by_cases hu : u = tileUrl template z x y
        · subst hu
          simp [hs _, hp]
        · simp only [if_neg hu]
          rw [hs u]
          have hne : ((PendingEntry.mk (tileUrl template z x y) (x, y) (ox, oy)).url == u)
              = false := by
            simp
            exact Ne.symm hu
          simp [hne]
  | finished url h =>
      intro u
      simp only [finishReply]
      by_cases hu : u = url
      · subst hu
        rw [hs u]
        simp [pendingContains_filter_self, h]
      · simp only [pendingContains_filter_ne _ _ _ hu, if_neg hu]
        exact hs u

theorem fetchInv_reachable {st : FetchState} (h : FetchReachable st) : fetchInv st := by
  induction h with
  | refl =>
      intro u
      rfl
  | tail hsteps hstep ih => exact fetchInv_step hstep ih

/-- **C4.** In every reachable coordinator state there is at most one
outstanding network request per tile URL; in particular a cache miss whose
URL is already in the pending map dispatches no new request — the
coordinator state is unchanged — which holds across successive viewport
recomputes since every recompute funnels misses through `loadTileAsync`. -/
theorem fetch_dedup_invariant (st : FetchState) (h : FetchReachable st) :
    (∀ u, st.inflight u ≤ 1) ∧
    (∀ template z x y offsetX offsetY,
      pendingContains st.pendingTiles (tileUrl template z x y) = true →
      loadTileAsync st template z x y offsetX offsetY = st) := by
  have hinv := fetchInv_reachable h
  constructor
  · intro u
    rw [hinv u]
    split <;> omega
  · intro template z x y ox oy hpend
    simp [loadTileAsync, hpend]

/-- Concrete instance of C4: after one dispatched miss, every URL has at
most one outstanding request. -/
theorem fetch_dedup_witness :
    FetchReachable
      (loadTileAsync initFetchState "https://tile.openstreetmap.org/{z}/{x}/{y}.png"
        12 1 1 0 0) ∧
    ∀ u, (loadTileAsync initFetchState "https://tile.openstreetmap.org/{z}/{x}/{y}.png"
        12 1 1 0 0).inflight u ≤ 1 :=
  ⟨Relation.ReflTransGen.single
     (FetchStep.miss initFetchState "https://tile.openstreetmap.org/{z}/{x}/{y}.png"
       12 1 1 0 0),
   (fetch_dedup_invariant _ (Relation.ReflTransGen.single
     (FetchStep.miss initFetchState "https://tile.openstreetmap.org/{z}/{x}/{y}.png"
       12 1 1 0 0))).1⟩

/-- **C8.** When a fetch completes with a network error or with undecodable
bytes, the handler removes the pending entry and delivers a synthesized
fallback tile to the viewport, and the disk cache is untouched: a fallback
is never persisted, only real imagery is cached. -/
theorem failedFetch_leaves_cache_unchanged (pending : List PendingEntry)
    (cacheEnabled : Bool) (maxCacheSizeMB : Int) (fs : List CacheFile) (now : Int)
    (dir : String) (s : MapState) (z x y ox oy : Int) (url : String) (r : ReplyOutcome)
    (h : r.networkOk = false ∨ r.decodable = false) :
    onReplyFinished pending cacheEnabled maxCacheSizeMB fs now dir s z x y ox oy url r =
      (pending.filter (fun e => e.url != url), fs,
       onTileLoaded s z x y ox oy (createFallbackTile x y)) := by
  rcases h with h | h
  · simp [onReplyFinished, h]
  · by_cases hnet : r.networkOk = true
    · simp [onReplyFinished, hnet, h]
    · rw [Bool.not_eq_true] at hnet
      simp [onReplyFinished, hnet]

/-- Concrete instance of C8: a network error delivers a fallback and the
cache list is returned as-is. -/
theorem failedFetch_cache_unchanged_witness :
    ((ReplyOutcome.mk false 0 false).networkOk = false ∨
      (ReplyOutcome.mk false 0 false).decodable = false) ∧
    onReplyFinished [] true 100 [CacheFile.mk "c" 1 10 true] 2 "cache" c5State
        5 3 3 0 0 "u" (ReplyOutcome.mk false 0 false) =
      (([] : List PendingEntry).filter (fun e => e.url != "u"),
       [CacheFile.mk "c" 1 10 true],
       onTileLoaded c5State 5 3 3 0 0 (createFallbackTile 3 3)) :=
  ⟨Or.inl (by decide),
   failedFetch_leaves_cache_unchanged [] true 100 [CacheFile.mk "c" 1 10 true] 2 "cache"
     c5State 5 3 3 0 0 "u" (ReplyOutcome.mk false 0 false) (Or.inl (by decide))⟩

/-- **C3.** For every longitude, every zoom, and every latitude strictly
inside (-90°, 90°) — which covers the Web-Mercator usable range of about
±85.05° — `pixelToGeo` inverts `geoToPixel` exactly over the reals (so in
particular within any floating-point tolerance). -/
theorem geoToPixel_pixelToGeo_roundtrip (lon lat : ℝ) (zoom : ℕ)
    (h1 : -90 < lat) (h2 : lat < 90) :
    pixelToGeo (geoToPixel lon lat zoom).1 (geoToPixel lon lat zoom).2 zoom = (lon, lat) := by
  have hpi : (0:ℝ) < Real.pi := Real.pi_pos
  have hT : TILE_SIZE ≠ 0 := by norm_num [TILE_SIZE]
  have hz : ((2:ℝ) ^ zoom) ≠ 0 := by positivity
  set φ := lat * Real.pi / 180 with hφ
  have hφ1 : -(Real.pi / 2) < φ := by
    rw [hφ]
    nlinarith [mul_pos (show (0:ℝ) < lat + 90 by linarith) hpi]
  have hφ2 : φ < Real.pi / 2 := by
    rw [hφ]
    nlinarith [mul_pos (show (0:ℝ) < 90 - lat by linarith) hpi]
  have hcos : 0 < Real.cos φ := Real.cos_pos_of_mem_Ioo ⟨hφ1, hφ2⟩
  have hsin : -1 < Real.sin φ := by
    rcases lt_or_eq_of_le (Real.neg_one_le_sin φ) with h | h
    · exact h
    · exfalso
      have hc2 : Real.sin φ ^ 2 + Real.cos φ ^ 2 = 1 := Real.sin_sq_add_cos_sq φ
      rw [← h] at hc2
      nlinarith
  have hu : Real.tan φ + 1 / Real.cos φ = (Real.sin φ + 1) / Real.cos φ := by
    rw [Real.tan_eq_sin_div_cos]
    field_simp
  have hupos : 0 < Real.tan φ + 1 / Real.cos φ := by
    rw [hu]
    exact div_pos (by linarith) hcos
  have hinv : (Real.tan φ + 1 / Real.cos φ)⁻¹ = 1 / Real.cos φ - Real.tan φ := by
    refine inv_eq_of_mul_eq_one_right ?_
    rw [Real.tan_eq_sin_div_cos]
    have hcne : Real.cos φ ≠ 0 := ne_of_gt hcos
    field_simp
    nlinarith [Real.sin_sq_add_cos_sq φ]
  have hsinh : Real.sinh (Real.log (Real.tan φ + 1 / Real.cos φ)) = Real.tan φ := by
    rw [Real.sinh_log hupos, hinv]
    ring
  simp only [geoToPixel, pixelToGeo, Prod.mk.injEq]
  constructor
  · field_simp
    ring
  · rw [← hφ]
    have harg : Real.pi * (1 - 2 * ((1 - Real.log (Real.tan φ + 1 / Real.cos φ) / Real.pi) / 2 *
        (2 ^ zoom : ℝ) * TILE_SIZE / TILE_SIZE) / (2 ^ zoom : ℝ)) =
        Real.log (Real.tan φ + 1 / Real.cos φ) := by
      field_simp
      ring
    rw [harg, hsinh, Real.arctan_tan hφ1 hφ2, hφ]
    field_simp

/-- Concrete instance of C3 at the default Hanoi view (lon 105.85,
lat 21.03, zoom 12). -/
theorem geoToPixel_roundtrip_witness :
    (-90:ℝ) < 21.03 ∧ (21.03:ℝ) < 90 ∧
    pixelToGeo (geoToPixel 105.85 21.03 12).1 (geoToPixel 105.85 21.03 12).2 12 =
      (105.85, 21.03) :=
  ⟨by norm_num, by norm_num,
   geoToPixel_pixelToGeo_roundtrip 105.85 21.03 12 (by norm_num) (by norm_num)⟩

end GISMap
